import Mathlib

/-!
Shallow embedding of the go-log package (markdumay/go-log): the global logger
state machine with its hold/flush buffering protocol, the in-memory `Buffer`
sink, `Bypass`, the fatal logging paths, `Format.String`, and `UnmarshalLog`.

Conventions:
* Go `Format` and `Level` are `Int` (Go `int` / `int8`); the enumeration
  constants are `Default = 0, Pretty = 1, JSON = 2` and
  `TraceLevel = -1, DebugLevel = 0, InfoLevel = 1, WarnLevel = 2,
  ErrorLevel = 3, FatalLevel = 4, PanicLevel = 5, NoLevel = 6, Disabled = 7`.
* The zerolog backend is modelled by its observable contract: a call
  `handler.WithLevel(l).Msg(m)` emits one record exactly when `l` is not
  `Disabled` and `l` is at or above the package-global minimum level
  (the logger's own level is `TraceLevel`, so only the global level filters).
  Emission is recorded as an `OutEvent` carrying the logger's rendering
  configuration (format, noColor) at the moment of the call; `os.Exit(1)`
  is recorded as an `OutEvent.exitProc` event.
* Wall-clock time (`time.Now()`) is ambient and not modelled: a buffered
  `Message` carries `time := none`.
-/

namespace GoLog

/-- The observable configuration state of a `ConsoleWriter` (`ConsoleWriter`
holds `format`, `noColor`, the borrowed destination `output`, and a cached
`writer` built by `newWriter` from exactly these fields, so the cached
renderer is determined by the fields kept here; `dest` abstracts the
destination handle, `0` standing for `os.Stdout`). -/
structure ConsoleWriter where
  format : Int
  noColor : Bool
  dest : Nat
deriving DecidableEq, Repr

/-- A parsed timestamp in the fixed RFC 3339 profile
`2006-01-02T15:04:05Z07:00` used throughout the package. `frac` keeps the
fractional-second digits (empty when absent) and `offMinutes` the numeric
UTC offset in minutes (`Z` parses as offset `0`). -/
structure Timestamp where
  year : Nat
  month : Nat
  day : Nat
  hour : Nat
  minute : Nat
  second : Nat
  frac : String
  offMinutes : Int
deriving DecidableEq, Repr

/-- Go `Message`: `{Level, Time, Message, Error string, err error}`.
`err` models the unexported error value as `Option String` (its text);
`errorText` models the exported `Error` field. -/
structure Message where
  level : Int
  time : Option Timestamp
  message : String
  errorText : String
  err : Option String
deriving DecidableEq, Repr

/-- Go `Logger`: `{format, level, handler, writers, noColor, buffer, hold}`.
The `handler` is the zerolog backend built over `writers`; it is modelled
behaviourally by the emission function below, so only the configuration
fields are kept. `level` is the struct field read by `Logger.Write`; no code
path ever assigns it, so it always holds the zero value `0`. -/
structure Logger where
  format : Int
  level : Int
  writers : List ConsoleWriter
  noColor : Bool
  buffer : List Message
  hold : Bool
deriving DecidableEq, Repr

/-- The package-global mutable state: `_logger`, the zerolog package-global
minimum level, and `_suppressExit`. -/
structure GlobalState where
  logger : Logger
  globalLevel : Int
  suppressExit : Bool
deriving DecidableEq, Repr

/-- One observable output of the backend: either a record delivered to the
active sinks (carrying the rendering configuration in force at the call) or
a process exit. -/
inductive OutEvent where
  | record (level : Int) (message : String) (errText : Option String)
      (format : Int) (noColor : Bool)
  | exitProc (code : Nat)
deriving DecidableEq, Repr

/-- zerolog backend filter for `handler.WithLevel(level).Msg(...)`: the event
fires unless the level is `Disabled` (7) or below the package-global minimum
level. (The handler's own level is `TraceLevel`, so it never filters; levels
outside zerolog's defined range `-1..7` are outside this model.) -/
def emitsAt (globalLevel level : Int) : Bool :=
  !(level == 7) && decide (globalLevel ≤ level)

/-- A record delivered to the sinks under the current rendering
configuration of `g`. -/
def mkEmit (g : GlobalState) (level : Int) (msg : String)
    (errText : Option String) : OutEvent :=
  .record level msg errText g.logger.format g.logger.noColor

/-- The `Message` built by `log` when holding: `Error` is set from the error
text when an error is attached, otherwise it stays the zero value `""`. -/
def mkRecord : Int × String × Option String → Message
  | (l, m, e) =>
    { level := l, time := none, message := m,
      errorText := (match e with | none => "" | some s => s), err := e }

/-- Go `log(level, msg, err)` after formatting (`fmt.Sprintf` is applied by
the callers' wrappers, so `msg` here is the final message text): when
`_logger.hold` is set the record is appended to `_logger.buffer` and nothing
reaches the backend; otherwise the backend emits it subject to the global
level filter. -/
def log (g : GlobalState) (level : Int) (msg : String)
    (errText : Option String) : GlobalState × List OutEvent :=
  if g.logger.hold then
    ({ g with logger :=
        { g.logger with buffer := g.logger.buffer ++ [mkRecord (level, msg, errText)] } },
     [])
  else
    (g, if emitsAt g.globalLevel level then [mkEmit g level msg errText] else [])

/-- Go `Hold()`: sets `_logger.hold`. -/
def Hold (g : GlobalState) : GlobalState :=
  { g with logger := { g.logger with hold := true } }

/-- The diagnostic text `Debugf("Flushing buffer with %d log(s)", n)`
produces. -/
def flushDiagMsg (n : Nat) : String :=
  "Flushing buffer with " ++ toString n ++ " log(s)"

/-- The replay loop of `Flush`: `for _, l := range buffer { log(l.Level,
l.Message, l.err) }`. -/
def replay (g : GlobalState) : List Message → GlobalState × List OutEvent
  | [] => (g, [])
  | m :: rest =>
    let r1 := log g m.level m.message m.err
    let r2 := replay r1.1 rest
    (r2.1, r1.2 ++ r2.2)

/-- Go `Flush()`: clears `hold` first, then — when the queue is non-empty —
emits the `Debugf` diagnostic and replays every queued record through `log`
(now in the live state), and finally empties the queue. -/
def Flush (g : GlobalState) : GlobalState × List OutEvent :=
  let g1 : GlobalState := { g with logger := { g.logger with hold := false } }
  let r :=
    if 0 < g1.logger.buffer.length then
      let r1 := log g1 0 (flushDiagMsg g1.logger.buffer.length) none
      let r2 := replay r1.1 g1.logger.buffer
      (r2.1, r1.2 ++ r2.2)
    else (g1, ([] : List OutEvent))
  ({ r.1 with logger := { r.1.logger with buffer := [] } }, r.2)

/-- Go `ConsoleWriter.SetFormatting`: updates `format`/`noColor` (and
rebuilds the cached renderer, which these fields determine) only when one of
them changes. -/
def ConsoleWriter.setFmt (w : ConsoleWriter) (f : Int) (noColor : Bool) :
    ConsoleWriter :=
  if w.format ≠ f ∨ w.noColor ≠ noColor then
    { w with format := f, noColor := noColor }
  else w

/-- Go `SetFormatting(format, noColor)`: mutates the global logger's
`format`/`noColor` in place and pushes the new setting to every writer. -/
def SetFormatting (g : GlobalState) (format : Int) (noColor : Bool) :
    GlobalState :=
  { g with logger :=
      { g.logger with
        format := format
        noColor := noColor
        writers := g.logger.writers.map (fun w => w.setFmt format noColor) } }

/-- Go `NewLogger(format, noColor, writer...)`: installs a fresh console
writer on `os.Stdout` when no writer is given, otherwise adopts the given
writers after instructing each to use the new format; `buffer` starts empty
and `hold`/`level` hold their zero values. -/
def NewLogger (format : Int) (noColor : Bool) (writer : List ConsoleWriter) :
    Logger :=
  let writers :=
    if writer.isEmpty then [{ format := format, noColor := noColor, dest := 0 }]
    else writer.map (fun w => w.setFmt format noColor)
  { format := format, level := 0, writers := writers, noColor := noColor,
    buffer := [], hold := false }

/-- Go `InitLoggerWithWriter(format, noColor, writer...)`: replaces `_logger`
wholesale with a `NewLogger`, then copies the old pending queue into the new
instance. The zerolog global level and `_suppressExit` are package globals
untouched by this call. -/
def InitLoggerWithWriter (g : GlobalState) (format : Int) (noColor : Bool)
    (writer : List ConsoleWriter) : GlobalState :=
  let l := NewLogger format noColor writer
  { g with logger := { l with buffer := g.logger.buffer } }

/-- Go `InitLogger(format)`: delegates to `InitLoggerWithWriter(format,
true)` — note the hard-coded `noColor = true`. -/
def InitLogger (g : GlobalState) (format : Int) : GlobalState :=
  InitLoggerWithWriter g format true []

/-- Go `Bypass(msg)`: saves level/format/noColor, switches to
`(Default, noColor = true)` and global level Info, emits one Info record
directly through the handler (never through `log`, so the hold flag is
ignored and nothing is queued), then the deferred calls restore formatting
and level. -/
def Bypass (g : GlobalState) (msg : String) : GlobalState × List OutEvent :=
  let level := g.globalLevel
  let format := g.logger.format
  let noColor := g.logger.noColor
  let g1 := SetFormatting g 0 true
  let g2 : GlobalState := { g1 with globalLevel := 1 }
  let out := if emitsAt g2.globalLevel 1 then [mkEmit g2 1 msg none] else []
  let g3 := SetFormatting g2 format noColor
  (({ g3 with globalLevel := level } : GlobalState), out)

/-- Go `Fatal(msg)`: emits directly through `handler.WithLevel(FatalLevel)`
(bypassing `log`, hence never queued, but still subject to the backend's
global level filter), then calls `os.Exit(1)` unless `_suppressExit`. -/
def Fatal (g : GlobalState) (msg : String) : GlobalState × List OutEvent :=
  (g, (if emitsAt g.globalLevel 4 then [mkEmit g 4 msg none] else [])
      ++ (if g.suppressExit then [] else [.exitProc 1]))

/-- Go `FatalE(e, msg)`: as `Fatal` with the error attached to the event. -/
def FatalE (g : GlobalState) (e : String) (msg : String) :
    GlobalState × List OutEvent :=
  (g, (if emitsAt g.globalLevel 4 then [mkEmit g 4 msg (some e)] else [])
      ++ (if g.suppressExit then [] else [.exitProc 1]))

/-- Go `strings.Split(s, "\n")` on the character sequence: splits around
every newline; the empty input yields one empty line. -/
def splitNL : List Char → List (List Char)
  | [] => [[]]
  | c :: rest =>
    if c == '\n' then [] :: splitNL rest
    else
      match splitNL rest with
      | [] => [[c]]
      | l :: ls => (c :: l) :: ls

/-- The lines of a Go `strings.Split(s, "\n")`, as strings. -/
def splitLines (s : String) : List String :=
  (splitNL s.toList).map (fun l => String.mk l)

/-- Go `Logger.Write(p)`: splits the input on `"\n"` and, for each line,
emits it at the logger's `level` field unless the line is empty and
`Format(zerolog.GlobalLevel()) != Format(Default)` — the code compares the
global LEVEL, cast to `Format`, against `Default`, so the test is
`globalLevel == 0`. Returns `(len(p), nil)`. -/
def loggerWrite (g : GlobalState) (p : String) :
    GlobalState × List OutEvent × (Nat × Option String) :=
  (g,
   (splitLines p).filterMap (fun line =>
     if line ≠ "" ∨ g.globalLevel = 0 then
       (if emitsAt g.globalLevel g.logger.level then
          some (mkEmit g g.logger.level line none)
        else none)
     else none),
   (p.length, none))

/-- Go `strings.TrimSuffix(string(p), "\n")`: removes at most one trailing
newline. -/
def trimOneTrailingNL (cs : List Char) : List Char :=
  match cs.reverse with
  | [] => cs
  | c :: rest => if c == '\n' then rest.reverse else cs

/-- Go `regexp.MustCompile("^\n\x7b2,\x7d").ReplaceAllString(input, "")`:
the anchored greedy pattern matches the maximal leading newline run when it
has length at least two, and that single match is deleted. -/
def stripLeadingNewlineRun (cs : List Char) : List Char :=
  let n := (cs.takeWhile (fun c => c == '\n')).length
  if 2 ≤ n then cs.drop n else cs

/-- The lines captured by one `Buffer.Write` call before the format filter:
trim one trailing newline, delete a leading run of two-or-more newlines,
split on newlines. -/
def bufferLines (p : String) : List String :=
  (splitNL (stripLeadingNewlineRun (trimOneTrailingNL p.toList))).map
    (fun l => String.mk l)

/-- Go `Buffer.Write(p)`: appends each of `bufferLines p` to the buffer
unless the line is empty and the AMBIENT global logger's format
(`_logger.format`, not any field of the buffer) is not `Default`; always
returns `(len(p), nil)`. -/
def bufferWrite (g : GlobalState) (buf : List String) (p : String) :
    List String × Nat × Option String :=
  (buf ++ (bufferLines p).filter
      (fun line => g.logger.format == 0 || line != ""),
   p.length, none)

/-- Go `newWriter(format, noColor, out)` applied to a `Buffer` destination,
as seen by `ConsoleWriter.Write`: for `Default` and `Pretty` the cached
writer is zerolog's console writer (an external component, not modelled:
`none`); for every other format `newWriter` returns the destination itself,
so writing goes straight to `Buffer.Write`. -/
def consoleWriterWriteToBuffer (g : GlobalState) (format : Int)
    (buf : List String) (p : String) :
    Option (List String × Nat × Option String) :=
  if format = 0 ∨ format = 1 then none
  else some (bufferWrite g buf p)

/-- Go `BufferedWriter.Write(p)`: delegates to the wrapped `ConsoleWriter`
(whose destination is the private `Buffer`). -/
def bufferedWriterWrite (g : GlobalState) (format : Int) (buf : List String)
    (p : String) : Option (List String × Nat × Option String) :=
  consoleWriterWriteToBuffer g format buf p

/-- Go `Format.String()`: bounds-checked table lookup, empty string out of
range. -/
def formatString (f : Int) : String :=
  if f < 0 ∨ 2 < f then ""
  else if f = 0 then "default"
  else if f = 1 then "pretty"
  else "json"

/-- Go `Format.MarshalText()`: returns `([]byte(f.String()), nil)`. -/
def formatMarshalText (f : Int) : String × Option String :=
  (formatString f, none)

/-- The loosely-typed placeholder `UnmarshalLog` decodes JSON into:
`{Level, Time, Message string; Error string json omitempty}` (a missing
`error` key decodes to `""`). -/
structure RawMsg where
  level : String
  time : String
  message : String
  error : String
deriving DecidableEq, Repr

/-- Which of the three failure paths of `UnmarshalLog` fired: the
`json.Unmarshal` error is returned verbatim (`jsonErr`); the other two are
the `fmt.Errorf` wrappers for the timestamp and the level. -/
inductive UnmarshalErr where
  | jsonErr
  | timeErr (got : String)
  | levelErr (got : String)
deriving DecidableEq, Repr

/-- Numeric value of a decimal digit character, `none` otherwise. -/
def digitVal (c : Char) : Option Nat :=
  if c.isDigit then some (c.toNat - 48) else none

/-- Two-digit decimal number. -/
def num2 (a b : Char) : Option Nat := do
  let x ← digitVal a
  let y ← digitVal b
  pure (10 * x + y)

/-- Four-digit decimal number. -/
def num4 (a b c d : Char) : Option Nat := do
  let x ← num2 a b
  let y ← num2 c d
  pure (100 * x + y)

/-- Gregorian leap-year rule. -/
def isLeap (y : Nat) : Bool :=
  (y % 4 == 0 && y % 100 != 0) || y % 400 == 0

/-- Days in a month of a given year. -/
def daysInMonth (y m : Nat) : Nat :=
  if m = 2 then (if isLeap y then 29 else 28)
  else if m = 4 ∨ m = 6 ∨ m = 9 ∨ m = 11 then 30
  else 31

/-- Optional fractional seconds: Go `time.Parse` accepts `.` plus one or
more digits immediately after the seconds even when the layout has no
fractional field; a bare `.` is an error. -/
def parseFrac : List Char → Option (String × List Char)
  | '.' :: rest =>
    let ds := rest.takeWhile Char.isDigit
    if ds.isEmpty then none else some (String.mk ds, rest.drop ds.length)
  | rest => some ("", rest)

/-- Numeric UTC offset of layout `Z07:00`: either the literal `Z` or
`±hh:mm`. -/
def parseOffset : List Char → Option Int
  | ['Z'] => some 0
  | [sg, a, b, ':', c, d] => do
    let hh ← num2 a b
    let mm ← num2 c d
    if hh ≤ 23 ∧ mm ≤ 59 then
      if sg = '+' then some ((hh * 60 + mm : Nat) : Int)
      else if sg = '-' then some (-((hh * 60 + mm : Nat) : Int))
      else none
    else none
  | _ => none

/-- Modelled from the spec: `time.Parse` (Go standard library, an external
collaborator) at the fixed profile `2006-01-02T15:04:05Z07:00` — "date-time
with UTC offset, second precision" — with calendar range validation and
Go's tolerance for fractional seconds after the seconds field. -/
def parseRFC3339 (s : String) : Option Timestamp :=
  match s.toList with
  | y1 :: y2 :: y3 :: y4 :: '-' :: m1 :: m2 :: '-' :: d1 :: d2 :: 'T' ::
    h1 :: h2 :: ':' :: n1 :: n2 :: ':' :: s1 :: s2 :: rest => do
    let y ← num4 y1 y2 y3 y4
    let mo ← num2 m1 m2
    let d ← num2 d1 d2
    let h ← num2 h1 h2
    let mi ← num2 n1 n2
    let se ← num2 s1 s2
    let fr ← parseFrac rest
    let off ← parseOffset fr.2
    if 1 ≤ mo ∧ mo ≤ 12 ∧ 1 ≤ d ∧ d ≤ daysInMonth y mo ∧
       h ≤ 23 ∧ mi ≤ 59 ∧ se ≤ 59 then
      some ⟨y, mo, d, h, mi, se, fr.1, off⟩
    else none
  | _ => none

/-- Modelled from the spec: the backend's level vocabulary ("a fixed set of
lowercase string tokens"; `zerolog.ParseLevel`, an external collaborator).
`NoLevel` serializes to the empty string and `Disabled` to `"disabled"`. -/
def parseLevelToken (s : String) : Option Int :=
  if s = "trace" then some (-1)
  else if s = "debug" then some 0
  else if s = "info" then some 1
  else if s = "warn" then some 2
  else if s = "error" then some 3
  else if s = "fatal" then some 4
  else if s = "panic" then some 5
  else if s = "" then some 6
  else if s = "disabled" then some 7
  else none

/-- Go `UnmarshalLog(bytes)`: the `json.Unmarshal` step (external) is
abstracted as the already-decoded `Option RawMsg` — `none` when the input is
not well-formed JSON for the placeholder. Then the `time` field must parse
under the exact layout and the `level` field must be a recognized token;
each failure short-circuits with its own error and the success case builds
the `Message` (the unexported `err` field is left nil). -/
def UnmarshalLog (decoded : Option RawMsg) : Except UnmarshalErr Message :=
  match decoded with
  | none => .error .jsonErr
  | some raw =>
    match parseRFC3339 raw.time with
    | none => .error (.timeErr raw.time)
    | some ts =>
      match parseLevelToken raw.level with
      | none => .error (.levelErr raw.level)
      | some lv =>
        .ok { level := lv, time := some ts, message := raw.message,
              errorText := raw.error, err := none }

/-- A convenience initial configuration for concrete instances: a fresh
console logger in the given format with the given color flag, under the
given global minimum level, exits not suppressed. -/
def mkState (format : Int) (noColor : Bool) (gl : Int) : GlobalState :=
  { logger := NewLogger format noColor [], globalLevel := gl,
    suppressExit := false }

/-- A sequence of leveled logging calls (`Debug`/`Info`/`Warn`/`Error`/
`Msg`/`MsgE`/..., each of which wraps `log`): level, final message text,
optional attached error text. -/
def applyCalls (g : GlobalState) :
    List (Int × String × Option String) → GlobalState × List OutEvent
  | [] => (g, [])
  | c :: rest =>
    let r1 := log g c.1 c.2.1 c.2.2
    let r2 := applyCalls r1.1 rest
    (r2.1, r1.2 ++ r2.2)

/-- The spec's queue invariant: the pending-message queue is non-empty only
while the hold flag is set. -/
def queueInvariant (g : GlobalState) : Prop :=
  g.logger.buffer ≠ [] → g.logger.hold = true

instance (g : GlobalState) : Decidable (queueInvariant g) := by
  unfold queueInvariant
  infer_instance

/-- Every registered writer agrees with the logger's rendering
configuration — the relationship every public code path maintains (writers
are synchronized by `NewLogger` and by `SetFormatting`). -/
def writersSynced (g : GlobalState) : Prop :=
  ∀ w ∈ g.logger.writers,
    w.format = g.logger.format ∧ w.noColor = g.logger.noColor

instance (g : GlobalState) : Decidable (writersSynced g) := by
  unfold writersSynced
  infer_instance

/-- C10: `Format.String` is total over all integer `Format` values: the
three in-range values map to their lowercase tokens, every out-of-range
value maps to the empty string instead of failing, and consequently
`Format.MarshalText` returns a nil error for every value. -/
theorem formatString_total :
    formatString 0 = "default" ∧ formatString 1 = "pretty" ∧
    formatString 2 = "json" ∧
    (∀ f : Int, f < 0 ∨ 2 < f → formatString f = "") ∧
    (∀ f : Int, formatMarshalText f = (formatString f, none)) := by
  refine ⟨rfl, rfl, rfl, ?_, fun f => rfl⟩
  intro f h
  simp only [formatString, if_pos h]

/-- Witness for `formatString_total` at the out-of-range values `5` and
`-3`. -/
theorem formatString_total_witness :
    formatString 5 = "" ∧ formatMarshalText (-3) = ("", none) := by
  refine ⟨formatString_total.2.2.2.1 5 (Or.inr (by norm_num)), ?_⟩
  have h1 := formatString_total.2.2.2.2 (-3)
  have h2 := formatString_total.2.2.2.1 (-3) (Or.inl (by norm_num))
  rw [h1, h2]

/-- C9: for every input, `Buffer.Write` reports success — it returns the
full input length and a nil error, whatever the capture filter did; and
`BufferedWriter.Write` for a JSON-format writer (whose cached writer is the
buffer itself) delegates to exactly that computation. -/
theorem bufferWrite_accounting :
    (∀ (g : GlobalState) (buf : List String) (p : String),
        (bufferWrite g buf p).2.1 = p.length ∧
        (bufferWrite g buf p).2.2 = none) ∧
    (∀ (g : GlobalState) (buf : List String) (p : String),
        bufferedWriterWrite g 2 buf p = some (bufferWrite g buf p)) := by
  constructor
  · intro g buf p
    exact ⟨rfl, rfl⟩
  · intro g buf p
    simp [bufferedWriterWrite, consoleWriterWriteToBuffer]

/-- C4 (code bug): `InitLogger` hard-codes `noColor = true`, so for every
format it installs a console writer with color DISABLED — although the
function's own documentation says output is written "with color coding" and
the spec calls the resulting sink color-enabled. -/
theorem initLogger_color_disabled :
    (∀ (g : GlobalState) (f : Int),
        (InitLogger g f).logger.noColor = true ∧
        (InitLogger g f).logger.writers =
          [{ format := f, noColor := true, dest := 0 }]) ∧
    (InitLogger (mkState 2 false 1) 0).logger.noColor = true := by
  exact ⟨fun g f => ⟨rfl, rfl⟩, rfl⟩

/-- C5 (code bug): `Logger.Write` decides whether to keep empty lines by
comparing `zerolog.GlobalLevel()` (a Level) against `Default` (a Format),
not the active format. With format Default and global level Info the empty
line of `"a\n\nb"` is dropped (and, the `level` field being the zero value
Debug, the remaining lines are filtered too, so nothing at all is emitted);
with format JSON and global level Debug the empty line is preserved even
though the format is not Default. -/
theorem loggerWrite_empty_line_policy :
    (loggerWrite (mkState 0 false 1) "a\n\nb").2.1 = [] ∧
    (loggerWrite (mkState 2 false 0) "a\n\nb").2.1 =
      [.record 0 "a" none 2 false, .record 0 "" none 2 false,
       .record 0 "b" none 2 false] := by
  exact ⟨by decide, by decide⟩

/-- C1 counterexample: from a fresh Default logger, `Hold()` followed by one
`Info` call yields a state satisfying the queue invariant, but
`InitLoggerWithWriter` then carries the non-empty queue into a replacement
logger whose `hold` flag is the zero value `false` — the invariant is
violated in the reachable post-reinitialization state. -/
theorem queue_invariant_counterexample :
    queueInvariant ((log (Hold (mkState 0 false 1)) 1 "x" none).1) ∧
    ¬ queueInvariant
        (InitLoggerWithWriter ((log (Hold (mkState 0 false 1)) 1 "x" none).1)
          0 false []) ∧
    (InitLoggerWithWriter ((log (Hold (mkState 0 false 1)) 1 "x" none).1)
        0 false []).logger.buffer ≠ [] ∧
    (InitLoggerWithWriter ((log (Hold (mkState 0 false 1)) 1 "x" none).1)
        0 false []).logger.hold = false := by decide

/-- C2 counterexample: with the global minimum level at Debug, holding one
Info record and flushing delivers TWO records to the sinks — the
`Debugf("Flushing buffer with %d log(s)")` diagnostic plus the queued
record — not exactly the one queued record. -/
theorem flush_extra_diagnostic :
    (Flush ((log (Hold (mkState 0 false 0)) 1 "hello" none).1)).2 =
      [.record 0 "Flushing buffer with 1 log(s)" none 0 false,
       .record 1 "hello" none 0 false] ∧
    ((Flush ((log (Hold (mkState 0 false 0)) 1 "hello" none).1)).2).length ≠
      1 := by decide

/-- Helper: `log` in the live state leaves the global state untouched and
emits subject to the filter. -/
theorem log_not_hold (g : GlobalState) (l : Int) (m : String)
    (e : Option String) (h : g.logger.hold = false) :
    log g l m e =
      (g, if emitsAt g.globalLevel l then [mkEmit g l m e] else []) := by
  simp [log, h]

/-- Helper: the replay loop in the live state leaves the state untouched
and emits the filtered records in order. -/
theorem replay_not_hold (g : GlobalState) (msgs : List Message)
    (h : g.logger.hold = false) :
    replay g msgs =
      (g, msgs.filterMap (fun m =>
        if emitsAt g.globalLevel m.level then
          some (mkEmit g m.level m.message m.err)
        else none)) := by
  induction msgs with
  | nil => simp [replay]
  | cons m rest ih =>
    simp only [replay, log_not_hold g _ _ _ h, ih, List.filterMap_cons]
    by_cases hc : emitsAt g.globalLevel m.level = true <;> simp [hc]

/-- Helper: while holding, a sequence of leveled calls emits nothing and
appends its records, in call order, to the queue. -/
theorem applyCalls_hold (g : GlobalState)
    (calls : List (Int × String × Option String))
    (h : g.logger.hold = true) :
    applyCalls g calls =
      ({ g with logger :=
          { g.logger with buffer := g.logger.buffer ++ calls.map mkRecord } },
       []) := by
  induction calls generalizing g with
  | nil => simp [applyCalls]
  | cons c rest ih =>
    simp only [applyCalls, log, h, if_true, List.map_cons]
    rw [ih _ rfl]
    simp [List.append_assoc]

/-- Helper: a guarded `filterMap` whose guard holds on every element of the
list is the plain `map`. -/
theorem filterMap_if_all {α β : Type} (p : α → Bool) (f : α → β)
    (l : List α) (h : ∀ a ∈ l, p a = true) :
    (l.filterMap (fun a => if p a then some (f a) else none)) = l.map f := by
  induction l with
  | nil => simp
  | cons a rest ih =>
    have ha := h a (List.mem_cons_self a rest)
    simp [List.filterMap_cons, ha,
          ih (fun b hb => h b (List.mem_cons_of_mem a hb))]

/-- Helper: reconfiguring a writer to `(Default, noColor)` and then back to
the configuration it already had restores it exactly. -/
theorem setFmt_restore (w : ConsoleWriter) (f : Int) (nc : Bool)
    (h1 : w.format = f) (h2 : w.noColor = nc) :
    (w.setFmt 0 true).setFmt f nc = w := by
  obtain ⟨wf, wn, wd⟩ := w
  simp only at h1 h2
  subst h1
  subst h2
  by_cases hf : wf = 0 <;> by_cases hn : wn = true <;>
    simp_all [ConsoleWriter.setFmt]

/-- Helper: `setFmt_restore` mapped over a synchronized writer list. -/
theorem setFmt_restore_map (ws : List ConsoleWriter) (f : Int) (nc : Bool)
    (h : ∀ w ∈ ws, w.format = f ∧ w.noColor = nc) :
    ws.map (fun w => (w.setFmt 0 true).setFmt f nc) = ws := by
  induction ws with
  | nil => rfl
  | cons w rest ih =>
    have hw := h w (List.mem_cons_self w rest)
    simp [setFmt_restore w f nc hw.1 hw.2,
          ih (fun x hx => h x (List.mem_cons_of_mem w hx))]

/-- C3 counterexample: a leveled call at Fatal level through the generic
path (`Msg(FatalLevel, ...)`, which wraps `log`) IS appended to the queue
while holding, emitting nothing and not terminating; and with the global
minimum level at `Disabled` the dedicated `Fatal` emits no record at all —
it only exits — so emission is not independent of the active minimum
level. -/
theorem fatal_carveout_counterexample :
    ((log (Hold (mkState 0 false 1)) 4 "boom" none).2 = [] ∧
     (log (Hold (mkState 0 false 1)) 4 "boom" none).1.logger.buffer =
       [mkRecord (4, "boom", none)]) ∧
    (Fatal (mkState 0 false 7) "boom").2 = [.exitProc 1] := by decide

/-- C1 amended: the queue invariant (non-empty queue only while holding) is
preserved by `log`, by `Hold`, and re-established by `Flush` (which always
ends with an empty queue); `InitLoggerWithWriter`, however, carries the
queue into the replacement logger while resetting `hold` to false, so it
preserves the invariant only when the carried queue is empty — a
reinitialization performed while holding queued records leaves a Live state
with a non-empty queue. -/
theorem queue_invariant_amended :
    (∀ (g : GlobalState) (l : Int) (m : String) (e : Option String),
        queueInvariant g → queueInvariant (log g l m e).1) ∧
    (∀ g : GlobalState, queueInvariant g → queueInvariant (Hold g)) ∧
    (∀ g : GlobalState, (Flush g).1.logger.buffer = []) ∧
    (∀ g : GlobalState, queueInvariant (Flush g).1) ∧
    (∀ (g : GlobalState) (f : Int) (nc : Bool) (ws : List ConsoleWriter),
        (InitLoggerWithWriter g f nc ws).logger.buffer = g.logger.buffer ∧
        (InitLoggerWithWriter g f nc ws).logger.hold = false) ∧
    (∀ (g : GlobalState) (f : Int) (nc : Bool) (ws : List ConsoleWriter),
        g.logger.buffer = [] →
        queueInvariant (InitLoggerWithWriter g f nc ws)) := by
  refine ⟨?_, ?_, ?_, ?_, ?_, ?_⟩
  · intro g l m e hinv
    by_cases h : g.logger.hold = true
    · intro _
      simp [log, h]
    · simp only [Bool.not_eq_true] at h
      rw [log_not_hold g l m e h]
      exact hinv
  · intro g _ _
    rfl
  · intro g
    rfl
  · intro g hne
    exact absurd rfl hne
  · intro g f nc ws
    exact ⟨rfl, rfl⟩
  · intro g f nc ws hbuf hne
    exact absurd (show (InitLoggerWithWriter g f nc ws).logger.buffer = []
      from hbuf) hne

/-- Witness for `queue_invariant_amended` at concrete states. -/
theorem queue_invariant_amended_witness :
    queueInvariant (log (mkState 0 false 1) 1 "m" none).1 ∧
    queueInvariant (Hold (mkState 0 false 1)) ∧
    queueInvariant (InitLoggerWithWriter (mkState 0 false 1) 2 true []) := by
  exact ⟨queue_invariant_amended.1 (mkState 0 false 1) 1 "m" none (by decide),
         queue_invariant_amended.2.1 (mkState 0 false 1) (by decide),
         queue_invariant_amended.2.2.2.2.2 (mkState 0 false 1) 2 true []
           (by decide)⟩

/-- C6: `Buffer.Write` captures lines after trimming one trailing newline,
deleting a leading run of two-or-more newlines, and splitting on newlines —
dropping empty lines exactly when the ambient global format is not Default.
On `"multiline\n\ninput"` it captures `["multiline", "", "input"]` under the
global Default format and `["multiline", "input"]` under global JSON. -/
theorem bufferWrite_capture :
    (bufferWrite (mkState 0 false 1) [] "multiline\n\ninput").1 =
      ["multiline", "", "input"] ∧
    (bufferWrite (mkState 2 false 1) [] "multiline\n\ninput").1 =
      ["multiline", "input"] ∧
    (∀ (g : GlobalState) (buf : List String) (p : String),
        (bufferWrite g buf p).1 =
          buf ++ (bufferLines p).filter
            (fun line => g.logger.format == 0 || line != "")) ∧
    (∀ (g : GlobalState) (buf : List String) (p : String),
        g.logger.format ≠ 0 →
        "" ∉ ((bufferWrite g buf p).1.drop buf.length)) ∧
    (∀ (g : GlobalState) (buf : List String) (p : String),
        g.logger.format = 0 →
        (bufferWrite g buf p).1 = buf ++ bufferLines p) := by
  refine ⟨by decide, by decide, fun g buf p => rfl, ?_, ?_⟩
  · intro g buf p hf
    simp only [bufferWrite, List.drop_left]
    intro hmem
    have := List.of_mem_filter hmem
    simp [hf] at this
  · intro g buf p hf
    simp [bufferWrite, hf, List.filter_eq_self]

/-- Witness for `bufferWrite_capture` at concrete inputs. -/
theorem bufferWrite_capture_witness :
    "" ∉ ((bufferWrite (mkState 2 false 1) ["k"] "x\n\ny").1.drop 1) ∧
    (bufferWrite (mkState 0 false 1) ["k"] "x\n\ny").1 =
      ["k"] ++ bufferLines "x\n\ny" := by
  exact ⟨bufferWrite_capture.2.2.2.1 (mkState 2 false 1) ["k"] "x\n\ny"
           (by decide),
         bufferWrite_capture.2.2.2.2 (mkState 0 false 1) ["k"] "x\n\ny" rfl⟩

/-- C3 amended: the dedicated fatal functions (`Fatal`, `Fatalf`, `FatalE`)
never queue and never mutate the logger state, even while holding: they emit
directly to the backend — still subject to the backend's global level
filter — and then terminate with exit code 1 unless suppressed by the
test-only switch; whereas a leveled call at Fatal or Panic level through the
generic path (`Msg`/`Msgf`/`MsgE`, i.e. `log`) is appended to the queue
while holding like any other level. -/
theorem fatal_functions_bypass_hold :
    (∀ (g : GlobalState) (msg : String), (Fatal g msg).1 = g) ∧
    (∀ (g : GlobalState) (e msg : String), (FatalE g e msg).1 = g) ∧
    (∀ (g : GlobalState) (msg : String), emitsAt g.globalLevel 4 = true →
        (Fatal g msg).2 =
          .record 4 msg none g.logger.format g.logger.noColor ::
            (if g.suppressExit then [] else [.exitProc 1])) ∧
    (∀ (g : GlobalState) (e msg : String), emitsAt g.globalLevel 4 = true →
        (FatalE g e msg).2 =
          .record 4 msg (some e) g.logger.format g.logger.noColor ::
            (if g.suppressExit then [] else [.exitProc 1])) ∧
    (∀ (g : GlobalState) (msg : String), g.suppressExit = false →
        (Fatal g msg).2.getLast? = some (.exitProc 1)) ∧
    (∀ (g : GlobalState) (msg : String), g.suppressExit = true →
        OutEvent.exitProc 1 ∉ (Fatal g msg).2) ∧
    (∀ (g : GlobalState) (msg : String) (e : Option String),
        g.logger.hold = true →
        (log g 4 msg e).2 = [] ∧
        (log g 4 msg e).1.logger.buffer =
          g.logger.buffer ++ [mkRecord (4, msg, e)] ∧
        (log g 5 msg e).2 = [] ∧
        (log g 5 msg e).1.logger.buffer =
          g.logger.buffer ++ [mkRecord (5, msg, e)]) := by
  refine ⟨fun g msg => rfl, fun g e msg => rfl, ?_, ?_, ?_, ?_, ?_⟩
  · intro g msg h
    simp [Fatal, h, mkEmit]
  · intro g e msg h
    simp [FatalE, h, mkEmit]
  · intro g msg h
    by_cases he : emitsAt g.globalLevel 4 = true <;>
      simp [Fatal, h, he, List.getLast?_concat]
  · intro g msg h
    by_cases he : emitsAt g.globalLevel 4 = true <;>
      simp [Fatal, h, he, mkEmit]
  · intro g msg e h
    simp [log, h]

/-- Witness for `fatal_functions_bypass_hold` at concrete states. -/
theorem fatal_functions_bypass_hold_witness :
    (Fatal (Hold (mkState 2 true 1)) "f").2 =
      .record 4 "f" none 2 true :: [.exitProc 1] ∧
    (Fatal (mkState 0 false 1) "f").2.getLast? = some (.exitProc 1) ∧
    (log (Hold (mkState 0 false 1)) 5 "p" none).2 = [] := by
  exact ⟨fatal_functions_bypass_hold.2.2.1 (Hold (mkState 2 true 1)) "f"
           (by decide),
         fatal_functions_bypass_hold.2.2.2.2.1 (mkState 0 false 1) "f" rfl,
         (fatal_functions_bypass_hold.2.2.2.2.2.2 (Hold (mkState 0 false 1))
           "p" none rfl).2.2.1⟩

/-- Helper: `log` on a state whose hold flag was just cleared. -/
theorem log_clearHold (g : GlobalState) (l : Int) (m : String)
    (e : Option String) :
    log { g with logger := { g.logger with hold := false } } l m e =
      ({ g with logger := { g.logger with hold := false } },
       if emitsAt g.globalLevel l then
         [.record l m e g.logger.format g.logger.noColor]
       else []) :=
  log_not_hold _ _ _ _ rfl

/-- Helper: the replay loop on a state whose hold flag was just cleared. -/
theorem replay_clearHold (g : GlobalState) (msgs : List Message) :
    replay { g with logger := { g.logger with hold := false } } msgs =
      ({ g with logger := { g.logger with hold := false } },
       msgs.filterMap (fun m =>
         if emitsAt g.globalLevel m.level then
           some (.record m.level m.message m.err g.logger.format
             g.logger.noColor)
         else none)) :=
  replay_not_hold _ _ rfl

/-- Helper: full characterization of `Flush` on an arbitrary state: it
clears `hold`, empties the queue, and emits the Debug diagnostic (when the
queue was non-empty) followed by the level-filtered replay of the queue in
order. -/
theorem Flush_spec (g : GlobalState) :
    (Flush g).1 =
      { g with logger := { g.logger with hold := false, buffer := [] } } ∧
    (Flush g).2 =
      (if 0 < g.logger.buffer.length then
        if emitsAt g.globalLevel 0 then
          [.record 0 (flushDiagMsg g.logger.buffer.length) none
            g.logger.format g.logger.noColor]
        else []
      else []) ++
      g.logger.buffer.filterMap (fun m =>
        if emitsAt g.globalLevel m.level then
          some (.record m.level m.message m.err g.logger.format
            g.logger.noColor)
        else none) := by
  by_cases hlen : 0 < g.logger.buffer.length
  · constructor <;>
      simp [Flush, hlen, log_clearHold, replay_clearHold, mkEmit]
  · have hb : g.logger.buffer = [] := by
      rcases hg : g.logger.buffer with _ | ⟨m, rest⟩
      · rfl
      · rw [hg] at hlen
        exact absurd (List.length_pos_of_ne_nil (by simp)) hlen
    constructor <;> simp [Flush, hlen, hb]

/-- Helper: replaying the records built by `mkRecord` filters and projects
the original calls. -/
theorem filterMap_map_mkRecord (gl fm : Int) (nc : Bool)
    (cs : List (Int × String × Option String)) :
    (cs.map mkRecord).filterMap (fun m =>
      if emitsAt gl m.level then
        some (OutEvent.record m.level m.message m.err fm nc)
      else none) =
    cs.filterMap (fun c =>
      if emitsAt gl c.1 then
        some (OutEvent.record c.1 c.2.1 c.2.2 fm nc)
      else none) := by
  induction cs with
  | nil => rfl
  | cons c rest ih =>
    rcases c with ⟨cl, cm, ce⟩
    simp [mkRecord, List.filterMap_cons, ih]

/-- C2 amended: after `hold()`, N leveled calls produce zero sink writes,
each appending one Record to the queue in call order; `flush()` then clears
the hold flag and empties the queue, but its emission is: one Debug-level
diagnostic announcing the flush (present only when the queue was non-empty
and Debug passes the global level filter) followed by the queued records
replayed in original order through the normal emission path — each replayed
record still subject to the global level filter. In particular, when the
minimum level is above Debug and every queued record passes the filter,
exactly N records reach the sinks; and a `flush()` with an empty queue
clears the hold flag, performs no replay, and emits nothing. -/
theorem hold_flush_replay (g : GlobalState)
    (calls : List (Int × String × Option String))
    (hempty : g.logger.buffer = []) :
    (applyCalls (Hold g) calls).2 = [] ∧
    (applyCalls (Hold g) calls).1.logger.buffer = calls.map mkRecord ∧
    (Flush (applyCalls (Hold g) calls).1).1.logger.hold = false ∧
    (Flush (applyCalls (Hold g) calls).1).1.logger.buffer = [] ∧
    (Flush (applyCalls (Hold g) calls).1).2 =
      (if 0 < calls.length then
        if emitsAt g.globalLevel 0 then
          [.record 0 (flushDiagMsg calls.length) none g.logger.format
            g.logger.noColor]
        else []
      else []) ++
      calls.filterMap (fun c =>
        if emitsAt g.globalLevel c.1 then
          some (.record c.1 c.2.1 c.2.2 g.logger.format g.logger.noColor)
        else none) ∧
    (calls = [] → (Flush (applyCalls (Hold g) calls).1).2 = []) ∧
    (0 < g.globalLevel →
      (∀ c ∈ calls, emitsAt g.globalLevel c.1 = true) →
      (Flush (applyCalls (Hold g) calls).1).2 =
        calls.map (fun c =>
          OutEvent.record c.1 c.2.1 c.2.2 g.logger.format
            g.logger.noColor) ∧
      ((Flush (applyCalls (Hold g) calls).1).2).length = calls.length) := by
  have happ : applyCalls (Hold g) calls =
      ({ g with logger :=
          { g.logger with hold := true, buffer := calls.map mkRecord } },
       []) := by
    rw [applyCalls_hold (Hold g) calls rfl]
    simp [Hold, hempty]
  rw [happ]
  have hFS := Flush_spec
    { g with logger :=
        { g.logger with hold := true, buffer := calls.map mkRecord } }
  have hout : (Flush
      ({ g with logger :=
          { g.logger with hold := true, buffer := calls.map mkRecord } } :
        GlobalState)).2 =
      (if 0 < calls.length then
        if emitsAt g.globalLevel 0 then
          [.record 0 (flushDiagMsg calls.length) none g.logger.format
            g.logger.noColor]
        else []
      else []) ++
      calls.filterMap (fun c =>
        if emitsAt g.globalLevel c.1 then
          some (.record c.1 c.2.1 c.2.2 g.logger.format g.logger.noColor)
        else none) := by
    rw [hFS.2]
    simp [List.length_map]
    congr 1
  refine ⟨rfl, rfl, ?_, ?_, hout, ?_, ?_⟩
  · rw [hFS.1]
  · rw [hFS.1]
  · intro hc
    subst hc
    rw [hout]
    simp
  · intro hgl hall
    have hd0 : emitsAt g.globalLevel 0 = false := by
      simp [emitsAt]
      omega
    rw [hout, filterMap_if_all (fun c => emitsAt g.globalLevel c.1)
      (fun c => OutEvent.record c.1 c.2.1 c.2.2 g.logger.format
        g.logger.noColor) calls hall]
    constructor
    · simp [hd0]
    · simp [hd0, List.length_map]

/-- Witness for `hold_flush_replay`: two leveled calls held and flushed
under minimum level Info. -/
theorem hold_flush_replay_witness :
    (applyCalls (Hold (mkState 0 false 1))
      [(1, "a", none), (3, "b", some "e")]).2 = [] ∧
    (Flush (applyCalls (Hold (mkState 0 false 1))
        [(1, "a", none), (3, "b", some "e")]).1).2 =
      [.record 1 "a" none 0 false, .record 3 "b" (some "e") 0 false] := by
  have h := hold_flush_replay (mkState 0 false 1)
    [(1, "a", none), (3, "b", some "e")] rfl
  refine ⟨h.1, ?_⟩
  exact (h.2.2.2.2.2.2 (by decide) (by decide)).1.trans (by decide)

/-- C7: `Bypass` emits exactly one Info-level, Default-format,
color-disabled record to the backend — regardless of the hold flag and of
the prior global level filter, and without touching the queue — and
afterwards the whole global state (format, color flag, global level, hold,
queue, writer list) is exactly as before the call. The writer list is
restored exactly because every reachable configuration keeps the writers
synchronized with the logger (`writersSynced`). -/
theorem bypass_frame (g : GlobalState) (msg : String)
    (h : writersSynced g) :
    (Bypass g msg).2 = [.record 1 msg none 0 true] ∧
    (Bypass g msg).1 = g := by
  constructor
  · rfl
  · have hmap := setFmt_restore_map g.logger.writers g.logger.format
      g.logger.noColor h
    obtain ⟨⟨fm, lv, ws, nc, buf, hd⟩, gl, se⟩ := g
    simp only at hmap
    simp [Bypass, SetFormatting, List.map_map]
    exact hmap

/-- Witness for `bypass_frame` at a JSON-format, color-enabled logger held
at minimum level Error. -/
theorem bypass_frame_witness :
    (Bypass (mkState 2 false 3) "status").1 = mkState 2 false 3 ∧
    (Bypass (mkState 2 false 3) "status").2 =
      [.record 1 "status" none 0 true] := by
  have h := bypass_frame (mkState 2 false 3) "status" (by decide)
  exact ⟨h.2, h.1⟩

/-- C8: `UnmarshalLog` succeeds exactly when the JSON decode succeeded, the
`time` field parses under the exact RFC 3339 layout used by the renderer,
and the `level` field is a recognized token — in which case the resulting
Message carries that level, timestamp, message and error text; each failure
path returns its own parse error and no Message. Concretely: a JSON-mode
line with a valid timestamp and level deserializes, a mistimed `time`
fails, and an unknown `level` fails. -/
theorem unmarshalLog_spec :
    (∀ d : Option RawMsg,
        (∃ m, UnmarshalLog d = .ok m) ↔
          ∃ r, d = some r ∧ (parseRFC3339 r.time).isSome ∧
            (parseLevelToken r.level).isSome) ∧
    (∀ (r : RawMsg) (ts : Timestamp) (lv : Int),
        parseRFC3339 r.time = some ts → parseLevelToken r.level = some lv →
        UnmarshalLog (some r) =
          .ok { level := lv, time := some ts, message := r.message,
                errorText := r.error, err := none }) ∧
    (∀ r : RawMsg, parseRFC3339 r.time = none →
        UnmarshalLog (some r) = .error (.timeErr r.time)) ∧
    (∀ (r : RawMsg) (ts : Timestamp),
        parseRFC3339 r.time = some ts → parseLevelToken r.level = none →
        UnmarshalLog (some r) = .error (.levelErr r.level)) ∧
    UnmarshalLog none = .error .jsonErr ∧
    UnmarshalLog (some ⟨"info", "2020-12-17T07:12:57+01:00",
        "Listing snapshots", ""⟩) =
      .ok { level := 1, time := some ⟨2020, 12, 17, 7, 12, 57, "", 60⟩,
            message := "Listing snapshots", errorText := "", err := none } ∧
    UnmarshalLog (some ⟨"info", "2020-12-17 07:12:57", "m", ""⟩) =
      .error (.timeErr "2020-12-17 07:12:57") ∧
    UnmarshalLog (some ⟨"verbose", "2020-12-17T07:12:57Z", "m", ""⟩) =
      .error (.levelErr "verbose") := by
  refine ⟨?_, ?_, ?_, ?_, rfl, rfl, rfl, rfl⟩
  · intro d
    constructor
    · rintro ⟨m, hm⟩
      rcases d with _ | r
      · simp [UnmarshalLog] at hm
      · rcases hts : parseRFC3339 r.time with _ | ts
        · simp [UnmarshalLog, hts] at hm
        · rcases hlv : parseLevelToken r.level with _ | lv
          · simp [UnmarshalLog, hts, hlv] at hm
          · exact ⟨r, rfl, by simp [hts], by simp [hlv]⟩
    · rintro ⟨r, rfl, h1, h2⟩
      rcases hts : parseRFC3339 r.time with _ | ts
      · rw [hts] at h1
        simp at h1
      · rcases hlv : parseLevelToken r.level with _ | lv
        · rw [hlv] at h2
          simp at h2
        · exact ⟨⟨lv, some ts, r.message, r.error, none⟩,
            by simp [UnmarshalLog, hts, hlv]⟩
  · intro r ts lv h1 h2
    simp [UnmarshalLog, h1, h2]
  · intro r h1
    simp [UnmarshalLog, h1]
  · intro r ts h1 h2
    simp [UnmarshalLog, h1, h2]

/-- Witness for `unmarshalLog_spec` on a warn-level line with an attached
error. -/
theorem unmarshalLog_spec_witness :
    UnmarshalLog (some ⟨"warn", "2021-01-02T03:04:05Z", "hi", "oops"⟩) =
      .ok { level := 2, time := some ⟨2021, 1, 2, 3, 4, 5, "", 0⟩,
            message := "hi", errorText := "oops", err := none } :=
  unmarshalLog_spec.2.1 ⟨"warn", "2021-01-02T03:04:05Z", "hi", "oops"⟩
    ⟨2021, 1, 2, 3, 4, 5, "", 0⟩ 2 (by decide) (by decide)

end GoLog
